import Mathlib

set_option autoImplicit false

/-!
Shallow embedding of the core of the `baobei-needs` game:
geometry and overlap test, the `Contact` unordered-pair relation,
the collision-resolution system, the contact-diffing trigger-area system
(`src/collisions/mod.rs`), the cooldown timer (`src/cooldown.rs`),
the happiness value (`src/gameplay/happiness.rs`) and the item/action
systems (`src/gameplay/items.rs`).

Machine floats (`f32`) are embedded as rationals; Bevy `Entity`
identifiers are embedded as naturals.
-/

namespace Baobei

/-- Entity identifiers (Bevy `Entity`), embedded as naturals. -/
abbrev Entity := Nat

/-- A 2D vector (`bevy::math::Vec2`), `f32` fields embedded as `ℚ`. -/
structure Vec2 where
  x : ℚ
  y : ℚ
  deriving DecidableEq, Repr

/-- A 3D vector (`bevy::math::Vec3`), `f32` fields embedded as `ℚ`. -/
structure Vec3 where
  x : ℚ
  y : ℚ
  z : ℚ
  deriving DecidableEq, Repr

instance : Add Vec3 := ⟨fun a b => ⟨a.x + b.x, a.y + b.y, a.z + b.z⟩⟩

instance : Mul Vec3 := ⟨fun a b => ⟨a.x * b.x, a.y * b.y, a.z * b.z⟩⟩

/-- `Vec3::unit_x()`. -/
def Vec3.unit_x : Vec3 := ⟨1, 0, 0⟩

/-- `Vec3::unit_y()`. -/
def Vec3.unit_y : Vec3 := ⟨0, 1, 0⟩

/-- The zero vector, `Vec3::default()` / `Movement::default()`. -/
def Vec3.zero : Vec3 := ⟨0, 0, 0⟩

/-- `bevy::sprite::collide_aabb::collide` (bevy 0.5), restricted to whether
the returned option `is_some`: two axis-aligned boxes centered at `a_pos`
and `b_pos` with full sizes `a_size`/`b_size` strictly overlap on both
axes (the `z` coordinates are truncated away). -/
def collide (a_pos : Vec3) (a_size : Vec2) (b_pos : Vec3) (b_size : Vec2) : Bool :=
  let a_min_x := a_pos.x - a_size.x / 2
  let a_max_x := a_pos.x + a_size.x / 2
  let a_min_y := a_pos.y - a_size.y / 2
  let a_max_y := a_pos.y + a_size.y / 2
  let b_min_x := b_pos.x - b_size.x / 2
  let b_max_x := b_pos.x + b_size.x / 2
  let b_min_y := b_pos.y - b_size.y / 2
  let b_max_y := b_pos.y + b_size.y / 2
  decide (a_min_x < b_max_x) && decide (a_max_x > b_min_x) &&
    decide (a_min_y < b_max_y) && decide (a_max_y > b_min_y)

/-- `BoxCollider` component: size plus offset from the entity position. -/
structure BoxCollider where
  size : Vec2
  offset : Vec3
  deriving DecidableEq, Repr

/-- `TriggerArea` component: a non-blocking overlap zone. -/
structure TriggerArea where
  size : Vec2
  deriving DecidableEq, Repr

/-- `Contact(pub Entity, pub Entity)`: a contact between two entities.
The Rust tuple struct's two positional fields are named `fst`/`snd`. -/
structure Contact where
  fst : Entity
  snd : Entity
  deriving DecidableEq, Repr

/-- `impl PartialEq for Contact`: equal when the pairs agree in the same
or in the inverted order. -/
def Contact.eq (c d : Contact) : Bool :=
  let same := c.fst == d.fst && c.snd == d.snd
  let inverted := c.fst == d.snd && c.snd == d.fst
  same || inverted

/-- `impl Hash for Contact` feeds the tuple `(min(a, b), max(a, b))` to the
hasher; this definition is that tuple, so two contacts hash identically
exactly when their `Contact.key`s are equal.  It also serves as the
canonical representative of the unordered pair. -/
def Contact.key (c : Contact) : Entity × Entity := (min c.fst c.snd, max c.fst c.snd)

/-- `ContactEvent`: emitted when a contact starts or stops. -/
inductive ContactEvent where
  | Started (contact : Contact)
  | Stopped (contact : Contact)
  deriving DecidableEq, Repr

/-- `Cooldown` (src/cooldown.rs): remaining time, fixed duration, and an
availability flag. -/
structure Cooldown where
  remaining : ℚ
  duration : ℚ
  available : Bool
  deriving DecidableEq, Repr

/-- `Cooldown::from_seconds`: created available, with zero remaining. -/
def Cooldown.from_seconds (seconds : ℚ) : Cooldown :=
  { duration := seconds, available := true, remaining := 0 }

/-- `Cooldown::start`: makes the cooldown unavailable for the full duration. -/
def Cooldown.start (c : Cooldown) : Cooldown :=
  { c with available := false, remaining := c.duration }

/-- `Cooldown::tick`: advances the cooldown by `delta` seconds; no-op when
already available, otherwise subtracts and clamps at zero, flipping
`available` back on once the remaining time is exhausted. -/
def Cooldown.tick (c : Cooldown) (delta : ℚ) : Cooldown :=
  if c.available then c
  else
    let remaining := c.remaining - delta
    if remaining ≤ 0 then { c with remaining := 0, available := true }
    else { c with remaining := remaining }

/-- `Happiness` (src/gameplay/happiness.rs): a single `f32` value,
embedded as `ℚ`. -/
structure Happiness where
  val : ℚ
  deriving DecidableEq, Repr

/-- `Happiness::happy()`: 100% happiness. -/
def Happiness.happy : Happiness := ⟨1⟩

/-- `Happiness::add`: adds the value, then clamps above at 1, then below
at 0 (the source applies the two clamps in that order). -/
def Happiness.add (h : Happiness) (value : ℚ) : Happiness :=
  let v := h.val + value
  let v1 := if v > 1 then 1 else v
  let v2 := if v1 < 0 then 0 else v1
  ⟨v2⟩

/-- `Happiness::sub`: subtracts by adding the negation. -/
def Happiness.sub (h : Happiness) (value : ℚ) : Happiness :=
  h.add (-value)

/-- `Item` (src/gameplay/items.rs): the closed item enumeration. -/
inductive Item where
  | IceCream
  | WaterGlass
  | Chips
  deriving DecidableEq, Repr

/-- `impl Distribution<Item> for Standard`: maps a raw draw from
`gen_range(0..=2)` to an item (`0 => IceCream, 1 => WaterGlass, _ => Chips`). -/
def sampleItem (r : ℕ) : Item :=
  match r with
  | 0 => Item.IceCream
  | 1 => Item.WaterGlass
  | _ => Item.Chips

/-- `random_different_item`: loops drawing random items until one differs
from `item`.  The random number generator is embedded as the stream
`draws` of raw draws together with the termination evidence `h` that some
draw differs; the loop returns the first such draw. -/
def random_different_item (item : Item) (draws : ℕ → ℕ)
    (h : ∃ n, sampleItem (draws n) ≠ item) : Item :=
  sampleItem (draws (Nat.find h))

/-- The `ActionEvent::Give` arm of `handle_actions_system` for one asker:
on a mismatch, decrease happiness by 0.15 and keep the asked item
(the source then returns from the system); on a match, increase happiness
by 0.15 and roll a new, different asked item. -/
def give_action (item asking : Item) (happiness : Happiness) (draws : ℕ → ℕ)
    (h : ∃ n, sampleItem (draws n) ≠ item) : Item × Happiness :=
  if asking ≠ item then (asking, happiness.sub (15 / 100))
  else (random_different_item item draws h, happiness.add (15 / 100))

/-- `ActionEvent` (src/gameplay/items.rs): an action the player made. -/
inductive ActionEvent where
  | Take (item : Item)
  | PutAway (item : Item)
  | Drop (item : Item)
  | PickUp (entity : Entity) (item : Item)
  | Keep (item : Item)
  | Give (item : Item)
  deriving DecidableEq, Repr

/-- Whether an event comes from the item-producer branch of
`pick_or_drop_system` (`Take`, `PutAway` or `Keep`). -/
def ActionEvent.fromProducerBranch : ActionEvent → Bool
  | .Take _ => true
  | .PutAway _ => true
  | .Keep _ => true
  | _ => false

/-- Whether an event is a `Give`. -/
def ActionEvent.isGive : ActionEvent → Bool
  | .Give _ => true
  | _ => false

/-- `pick_or_drop_system` (src/gameplay/items.rs): one tick of the action
derivation.  The queries are embedded as follows: `contacts` is the list of
persisted `Contact` components; `item_producers`, `item_askers` and `items`
give the result of `Query::get` on an entity; `carried_item` is the result
of `carriers.get(didi)`.  Returns the emitted `ActionEvent`s (in emission
order) together with the final cooldown state. -/
def pick_or_drop_system (delta : ℚ) (cooldown : Cooldown) (space_pressed : Bool)
    (didi : Entity) (contacts : List Contact)
    (item_producers : Entity → Option Item) (item_askers : Entity → Option Item)
    (items : Entity → Option Item) (carried_item : Option Item) :
    List ActionEvent × Cooldown :=
  let cd := cooldown.tick delta
  if !cd.available || !space_pressed then ([], cd)
  else
    -- Pick or put away an item in a producer
    let produced_items :=
      (contacts.filter fun contact => contact.fst == didi).filterMap
        fun contact => item_producers contact.snd
    let producer_events := produced_items.map fun produced_item =>
      match carried_item with
      | some item =>
          if item = produced_item then ActionEvent.PutAway item
          else ActionEvent.Keep item
      | none => ActionEvent.Take produced_item
    let cd := if produced_items.isEmpty then cd else cd.start
    if !cd.available then (producer_events, cd)
    else
      -- Give an item to baobei
      match carried_item with
      | some item =>
          let asker_hits :=
            (contacts.filter fun contact => contact.fst == didi).filterMap
              fun contact => item_askers contact.snd
          let give_events := asker_hits.map fun _ => ActionEvent.Give item
          let cd := if asker_hits.isEmpty then cd else cd.start
          if !cd.available then (producer_events ++ give_events, cd)
          else
            -- Drop the item to the ground
            (producer_events ++ give_events ++ [ActionEvent.Drop item], cd.start)
      | none =>
          -- Pick up the item on the ground
          let item_on_the_ground :=
            (contacts.filter fun contact => contact.fst == didi).findSome?
              fun contact => (items contact.snd).map fun item => (contact.snd, item)
          match item_on_the_ground with
          | some (item_entity, item) =>
              (producer_events ++ [ActionEvent.PickUp item_entity item], cd.start)
          | none => (producer_events, cd)

/-- A static collider: an entity with `Position + BoxCollider` but no
`Movement` (the `other_colliders` query of `collision_system`). -/
structure StaticCollider where
  pos : Vec3
  collider : BoxCollider
  deriving DecidableEq, Repr

/-- The `will_not_collide` closure of `collision_system`: the moving
collider placed at `next_pos_a` overlaps no static collider. -/
def will_not_collide (col_a : BoxCollider) (others : List StaticCollider)
    (next_pos_a : Vec3) : Bool :=
  others.all fun ob =>
    !collide (next_pos_a + col_a.offset) col_a.size (ob.pos + ob.collider.offset)
      ob.collider.size

/-- The body of the `collision_system` loop for one moving entity:
commits the x component if unblocked, then the y component if unblocked
from the (possibly x-advanced) position, and resets the movement to zero.
Returns the new position and the new movement. -/
def collision_step (pos_a : Vec3) (col_a : BoxCollider) (mov_a : Vec3)
    (others : List StaticCollider) : Vec3 × Vec3 :=
  let pos1 :=
    if will_not_collide col_a others (pos_a + mov_a * Vec3.unit_x) then
      { pos_a with x := pos_a.x + mov_a.x }
    else pos_a
  let pos2 :=
    if will_not_collide col_a others (pos1 + mov_a * Vec3.unit_y) then
      { pos1 with y := pos1.y + mov_a.y }
    else pos1
  (pos2, Vec3.zero)

/-- `collision_system` (src/collisions/mod.rs): resolves every moving
collider independently against the static colliders. -/
def collision_system (movers : List (Vec3 × BoxCollider × Vec3))
    (others : List StaticCollider) : List (Vec3 × Vec3) :=
  movers.map fun m => collision_step m.1 m.2.1 m.2.2 others

/-- A moving collider as queried by `trigger_area_system`:
`(Entity, &Position, &BoxCollider)` with `With<Movement>`. -/
structure MovingCollider where
  entity : Entity
  pos : Vec3
  collider : BoxCollider
  deriving DecidableEq, Repr

/-- A trigger area as queried by `trigger_area_system`:
`(Entity, &Position, &TriggerArea)`. -/
structure TriggerEntry where
  entity : Entity
  pos : Vec3
  area : TriggerArea
  deriving DecidableEq, Repr

/-- `HashSet<Contact>::insert`: adds the contact unless one equal to it
(under `Contact.eq`) is already present. -/
def insertContact (s : List Contact) (c : Contact) : List Contact :=
  if s.any fun d => Contact.eq d c then s else s ++ [c]

/-- The double loop of `trigger_area_system` filling `next_contacts`:
for every moving collider and every trigger area whose boxes overlap,
insert `Contact(entity_a, entity_b)` into the set. -/
def collectTriggerContacts (movers : List MovingCollider)
    (areas : List TriggerEntry) : List Contact :=
  movers.foldl
    (fun acc a =>
      areas.foldl
        (fun acc' b =>
          if collide a.pos a.collider.size b.pos b.area.size then
            insertContact acc' (Contact.mk a.entity b.entity)
          else acc')
        acc)
    []

/-- `HashMap<Contact, Entity>::insert` while collecting `prev_entities`:
replaces the value of an equal key when present, otherwise appends. -/
def insertMapEntry (m : List (Contact × Entity)) (c : Contact) (e : Entity) :
    List (Contact × Entity) :=
  if m.any fun p => Contact.eq p.1 c then
    m.map fun p => if Contact.eq p.1 c then (p.1, e) else p
  else m ++ [(c, e)]

/-- `contacts.iter().map(|(&c, e)| (c, e)).collect::<HashMap<_, _>>()`. -/
def collectMap (records : List (Contact × Entity)) : List (Contact × Entity) :=
  records.foldl (fun m p => insertMapEntry m p.1 p.2) []

/-- `HashMap::get`: the value of the first entry equal (under `Contact.eq`)
to the key. -/
def lookupMap (m : List (Contact × Entity)) (c : Contact) : Option Entity :=
  match m with
  | [] => none
  | p :: rest => if Contact.eq p.1 c then some p.2 else lookupMap rest c

/-- The persisted contact store: the `(&Contact, Entity)` records that the
`contacts` query of `trigger_area_system` sees, plus the next fresh id the
world will assign to a spawned record entity. -/
structure TriggerState where
  records : List (Contact × Entity)
  nextId : Entity
  deriving DecidableEq, Repr

/-- `commands.spawn().insert(contact)` for each started contact: each new
record gets a fresh backing entity id, in spawn order. -/
def assignIds : List Contact → Entity → List (Contact × Entity)
  | [], _ => []
  | c :: rest, base => (c, base) :: assignIds rest (base + 1)

/-- `trigger_area_system` (src/collisions/mod.rs): one contact-diffing
pass.  Computes the fresh contact set, diffs it against the persisted
records, emits `Started` then `Stopped` events, spawns a record for each
started contact and despawns the record of each stopped contact. -/
def trigger_area_system (movers : List MovingCollider) (areas : List TriggerEntry)
    (s : TriggerState) : List ContactEvent × TriggerState :=
  let next_contacts := collectTriggerContacts movers areas
  let prev_entities := collectMap s.records
  let prev_contacts := prev_entities.map Prod.fst
  let started := next_contacts.filter fun c =>
    !prev_contacts.any fun d => Contact.eq d c
  let stopped := prev_contacts.filter fun c =>
    !next_contacts.any fun d => Contact.eq d c
  let events := started.map ContactEvent.Started ++ stopped.map ContactEvent.Stopped
  let despawned := stopped.filterMap fun c => lookupMap prev_entities c
  let records :=
    (s.records.filter fun r => !despawned.contains r.2) ++ assignIds started s.nextId
  (events, ⟨records, s.nextId + started.length⟩)

/-- Well-formedness of the contact store: distinct unordered pairs,
distinct backing entity ids, all ids already allocated. -/
def TriggerState.WF (s : TriggerState) : Prop :=
  (s.records.map fun r => r.1.key).Nodup ∧
    (s.records.map Prod.snd).Nodup ∧ ∀ r ∈ s.records, r.2 < s.nextId

/-- The contact stores reachable from the initial empty world by running
contact-diffing passes. -/
inductive TriggerState.Reachable : TriggerState → Prop
  | init : TriggerState.Reachable ⟨[], 0⟩
  | step (movers : List MovingCollider) (areas : List TriggerEntry)
      (s : TriggerState) : TriggerState.Reachable s →
      TriggerState.Reachable (trigger_area_system movers areas s).2

/-- The cooldown values reachable through the public operations
`from_seconds`, `start` and `tick` with non-negative deltas. -/
inductive Cooldown.Reachable : Cooldown → Prop
  | from_seconds (s : ℚ) : Cooldown.Reachable (Cooldown.from_seconds s)
  | start (c : Cooldown) : Cooldown.Reachable c → Cooldown.Reachable c.start
  | tick (c : Cooldown) (delta : ℚ) : 0 ≤ delta → Cooldown.Reachable c →
      Cooldown.Reachable (c.tick delta)

/-- The cooldown values reachable when every `from_seconds` duration is
positive (the amended reachability for the availability invariant). -/
inductive Cooldown.ReachablePos : Cooldown → Prop
  | from_seconds (s : ℚ) : 0 < s → Cooldown.ReachablePos (Cooldown.from_seconds s)
  | start (c : Cooldown) : Cooldown.ReachablePos c → Cooldown.ReachablePos c.start
  | tick (c : Cooldown) (delta : ℚ) : 0 ≤ delta → Cooldown.ReachablePos c →
      Cooldown.ReachablePos (c.tick delta)

/-! ### Helper lemmas -/

theorem Vec3.add_def (a b : Vec3) : a + b = ⟨a.x + b.x, a.y + b.y, a.z + b.z⟩ := rfl

theorem Vec3.mul_def (a b : Vec3) : a * b = ⟨a.x * b.x, a.y * b.y, a.z * b.z⟩ := rfl

theorem Contact.eq_iff_key {c d : Contact} : Contact.eq c d = true ↔ c.key = d.key := by
  obtain ⟨a, b⟩ := c
  obtain ⟨e, f⟩ := d
  simp only [Contact.eq, Contact.key, Bool.or_eq_true, Bool.and_eq_true, beq_iff_eq,
    Prod.mk.injEq]
  constructor
  · rintro (⟨rfl, rfl⟩ | ⟨rfl, rfl⟩)
    · exact ⟨rfl, rfl⟩
    · exact ⟨min_comm _ _, max_comm _ _⟩
  · rintro ⟨h1, h2⟩
    rcases le_total a b with hab | hab <;> rcases le_total e f with hef | hef
    · rw [min_eq_left hab, min_eq_left hef] at h1
      rw [max_eq_right hab, max_eq_right hef] at h2
      exact Or.inl ⟨h1, h2⟩
    · rw [min_eq_left hab, min_eq_right hef] at h1
      rw [max_eq_right hab, max_eq_left hef] at h2
      exact Or.inr ⟨h1, h2⟩
    · rw [min_eq_right hab, min_eq_left hef] at h1
      rw [max_eq_left hab, max_eq_right hef] at h2
      exact Or.inr ⟨h2, h1⟩
    · rw [min_eq_right hab, min_eq_right hef] at h1
      rw [max_eq_left hab, max_eq_left hef] at h2
      exact Or.inl ⟨h2, h1⟩

theorem Contact.eq_self (c : Contact) : Contact.eq c c = true :=
  Contact.eq_iff_key.mpr rfl

theorem Cooldown.start_available (c : Cooldown) : c.start.available = false := rfl

theorem Cooldown.tick_of_available {c : Cooldown} (h : c.available = true) (delta : ℚ) :
    c.tick delta = c := by
  simp [Cooldown.tick, h]

theorem Contact.key_swap (a b : Entity) :
    (Contact.mk a b).key = (Contact.mk b a).key := by
  simp only [Contact.key, Prod.mk.injEq]
  exact ⟨min_comm _ _, max_comm _ _⟩

/-! ### Claim theorems -/

/-- Claim C6: for any two entities `a` and `b`, `Contact(a, b)` compares
equal to `Contact(b, a)` under the `Contact` equality relation, and both
feed the identical tuple to the hasher, so they hash to the same value. -/
theorem contact_symmetric_eq_and_hash (a b : Entity) :
    Contact.eq (Contact.mk a b) (Contact.mk b a) = true ∧
      (Contact.mk a b).key = (Contact.mk b a).key :=
  ⟨Contact.eq_iff_key.mpr (Contact.key_swap a b), Contact.key_swap a b⟩

/-- Claim C10: starting from any happiness value in `[0, 1]`, both `add`
and `sub` clamp their result into `[0, 1]`, for every argument. -/
theorem happiness_clamped (h : Happiness) (v : ℚ) (h0 : 0 ≤ h.val) (h1 : h.val ≤ 1) :
    (0 ≤ (h.add v).val ∧ (h.add v).val ≤ 1) ∧
      (0 ≤ (h.sub v).val ∧ (h.sub v).val ≤ 1) := by
  constructor
  · simp only [Happiness.add]
    split_ifs <;> constructor <;> linarith
  · simp only [Happiness.sub, Happiness.add]
    split_ifs <;> constructor <;> linarith

/-- Witness for claim C10 at the value `1/2` and argument `10`. -/
theorem happiness_clamped_witness :
    (0 ≤ ((1 : ℚ) / 2) ∧ ((1 : ℚ) / 2) ≤ 1) ∧
      ((0 ≤ ((⟨1 / 2⟩ : Happiness).add 10).val ∧ ((⟨1 / 2⟩ : Happiness).add 10).val ≤ 1) ∧
        (0 ≤ ((⟨1 / 2⟩ : Happiness).sub 10).val ∧ ((⟨1 / 2⟩ : Happiness).sub 10).val ≤ 1)) :=
  ⟨by norm_num, happiness_clamped ⟨1 / 2⟩ 10 (by norm_num) (by norm_num)⟩

/-- Claim C9 counterexample: the cooldown `from_seconds 0` followed by
`start` is reachable through the public operations, yet it is unavailable
while its remaining time is zero, refuting `available ↔ remaining = 0`. -/
theorem cooldown_available_iff_zero_counterexample :
    Cooldown.Reachable ((Cooldown.from_seconds 0).start) ∧
      ¬(((Cooldown.from_seconds 0).start).available = true ↔
        ((Cooldown.from_seconds 0).start).remaining = 0) :=
  ⟨Cooldown.Reachable.start _ (Cooldown.Reachable.from_seconds 0), by decide⟩

/-- Claim C9 (amended): for every cooldown reachable through
`from_seconds` with a positive duration, `start`, and `tick` with
non-negative deltas, the cooldown is available exactly when its remaining
time is zero, and the remaining time is never negative. -/
theorem cooldown_available_iff_zero (c : Cooldown) (h : Cooldown.ReachablePos c) :
    (c.available = true ↔ c.remaining = 0) ∧ 0 ≤ c.remaining ∧ 0 < c.duration := by
  induction h with
  | from_seconds s hs =>
      refine ⟨by simp [Cooldown.from_seconds], by simp [Cooldown.from_seconds],
        by simpa [Cooldown.from_seconds] using hs⟩
  | start c' hc ih =>
      obtain ⟨hiff, hrem, hdur⟩ := ih
      refine ⟨?_, ?_, ?_⟩
      · simp only [Cooldown.start, Bool.false_eq_true, false_iff]
        exact ne_of_gt hdur
      · simpa [Cooldown.start] using le_of_lt hdur
      · simpa [Cooldown.start] using hdur
  | tick c' delta hd hc ih =>
      obtain ⟨hiff, hrem, hdur⟩ := ih
      by_cases hav : c'.available = true
      · have hskip : c'.tick delta = c' := by simp [Cooldown.tick, hav]
        rw [hskip]
        exact ⟨hiff, hrem, hdur⟩
      · by_cases hle : c'.remaining - delta ≤ 0
        · simp [Cooldown.tick, hav, hle, hdur]
        · refine ⟨?_, ?_, ?_⟩
          · simp only [Cooldown.tick, hav, Bool.false_eq_true, if_false, hle,
              false_iff]
            intro habs
            exact hle (le_of_eq habs)
          · simp only [Cooldown.tick, hav, Bool.false_eq_true, if_false, hle]
            linarith [lt_of_not_le hle]
          · simpa [Cooldown.tick, hav, hle] using hdur

/-- Witness for claim C9 at the cooldown `from_seconds 1`, started, then
ticked by `1`. -/
theorem cooldown_available_iff_zero_witness :
    Cooldown.ReachablePos (((Cooldown.from_seconds 1).start).tick 1) ∧
      ((((Cooldown.from_seconds 1).start).tick 1).available = true ↔
        (((Cooldown.from_seconds 1).start).tick 1).remaining = 0) ∧
      0 ≤ (((Cooldown.from_seconds 1).start).tick 1).remaining ∧
      0 < (((Cooldown.from_seconds 1).start).tick 1).duration :=
  ⟨Cooldown.ReachablePos.tick _ 1 (by norm_num)
      (Cooldown.ReachablePos.start _ (Cooldown.ReachablePos.from_seconds 1 (by norm_num))),
    cooldown_available_iff_zero _
      (Cooldown.ReachablePos.tick _ 1 (by norm_num)
        (Cooldown.ReachablePos.start _ (Cooldown.ReachablePos.from_seconds 1 (by norm_num))))⟩

/-- Claim C8: when the asker asks for `IceCream` and the player gives
`IceCream`, the newly rolled asked item is `WaterGlass` or `Chips`, never
`IceCream`; in general `random_different_item` never returns the item just
given. -/
theorem give_rolls_different_item (draws : ℕ → ℕ)
    (h : ∃ n, sampleItem (draws n) ≠ Item.IceCream) (hap : Happiness) :
    ((give_action Item.IceCream Item.IceCream hap draws h).1 = Item.WaterGlass ∨
      (give_action Item.IceCream Item.IceCream hap draws h).1 = Item.Chips) ∧
      ∀ (item : Item) (draws' : ℕ → ℕ) (h' : ∃ n, sampleItem (draws' n) ≠ item),
        random_different_item item draws' h' ≠ item := by
  have hgen : ∀ (item : Item) (draws' : ℕ → ℕ)
      (h' : ∃ n, sampleItem (draws' n) ≠ item),
      random_different_item item draws' h' ≠ item :=
    fun _ _ h' => Nat.find_spec h'
  refine ⟨?_, hgen⟩
  have hfst : (give_action Item.IceCream Item.IceCream hap draws h).1 =
      random_different_item Item.IceCream draws h := by
    simp [give_action]
  rw [hfst]
  cases hI : random_different_item Item.IceCream draws h with
  | IceCream => exact absurd hI (hgen _ _ _)
  | WaterGlass => exact Or.inl rfl
  | Chips => exact Or.inr rfl

/-- Witness for claim C8 with the draw stream that always draws `2`
(`Chips`). -/
theorem give_rolls_different_item_witness :
    (∃ n, sampleItem ((fun _ : ℕ => 2) n) ≠ Item.IceCream) ∧
      (((give_action Item.IceCream Item.IceCream ⟨1⟩ (fun _ : ℕ => 2)
            ⟨0, by decide⟩).1 = Item.WaterGlass ∨
        (give_action Item.IceCream Item.IceCream ⟨1⟩ (fun _ : ℕ => 2)
            ⟨0, by decide⟩).1 = Item.Chips) ∧
        ∀ (item : Item) (draws' : ℕ → ℕ) (h' : ∃ n, sampleItem (draws' n) ≠ item),
          random_different_item item draws' h' ≠ item) :=
  ⟨⟨0, by decide⟩, give_rolls_different_item (fun _ : ℕ => 2) ⟨0, by decide⟩ ⟨1⟩⟩

/-- Claim C5: when the x component of a diagonal movement is blocked by at
least one static collider but the y component alone is not blocked, the
collision step commits only the y component, and the movement component is
always reset to zero. -/
theorem collision_slides (pos : Vec3) (col : BoxCollider) (mov : Vec3)
    (others : List StaticCollider)
    (hx : ∃ ob ∈ others, collide (pos + mov * Vec3.unit_x + col.offset) col.size
      (ob.pos + ob.collider.offset) ob.collider.size = true)
    (hy : ∀ ob ∈ others, collide (pos + mov * Vec3.unit_y + col.offset) col.size
      (ob.pos + ob.collider.offset) ob.collider.size = false) :
    collision_step pos col mov others = ({ pos with y := pos.y + mov.y }, Vec3.zero) ∧
      ∀ (p : Vec3) (c : BoxCollider) (m : Vec3) (o : List StaticCollider),
        (collision_step p c m o).2 = Vec3.zero := by
  have hwx : will_not_collide col others (pos + mov * Vec3.unit_x) = false := by
    obtain ⟨ob, hob, hcol⟩ := hx
    cases hall : will_not_collide col others (pos + mov * Vec3.unit_x) with
    | false => rfl
    | true =>
        exfalso
        have := List.all_eq_true.mp hall ob hob
        rw [hcol] at this
        exact Bool.false_ne_true (by simpa using this)
  have hwy : will_not_collide col others (pos + mov * Vec3.unit_y) = true := by
    apply List.all_eq_true.mpr
    intro ob hob
    simp [hy ob hob]
  constructor
  · simp [collision_step, hwx, hwy]
  · intro p c m o
    simp [collision_step]

/-- Witness for claim C5: a unit mover at the origin moving `(1, 1)` into a
wall at `(2, 0)` slides to `(0, 1)`. -/
theorem collision_slides_witness :
    (∃ ob ∈ [StaticCollider.mk ⟨2, 0, 0⟩ ⟨⟨2, 2⟩, ⟨0, 0, 0⟩⟩],
      collide ((⟨0, 0, 0⟩ : Vec3) + (⟨1, 1, 0⟩ : Vec3) * Vec3.unit_x +
          (⟨⟨2, 2⟩, ⟨0, 0, 0⟩⟩ : BoxCollider).offset) (⟨⟨2, 2⟩, ⟨0, 0, 0⟩⟩ : BoxCollider).size
        (ob.pos + ob.collider.offset) ob.collider.size = true) ∧
      (∀ ob ∈ [StaticCollider.mk ⟨2, 0, 0⟩ ⟨⟨2, 2⟩, ⟨0, 0, 0⟩⟩],
        collide ((⟨0, 0, 0⟩ : Vec3) + (⟨1, 1, 0⟩ : Vec3) * Vec3.unit_y +
            (⟨⟨2, 2⟩, ⟨0, 0, 0⟩⟩ : BoxCollider).offset) (⟨⟨2, 2⟩, ⟨0, 0, 0⟩⟩ : BoxCollider).size
          (ob.pos + ob.collider.offset) ob.collider.size = false) ∧
      collision_step ⟨0, 0, 0⟩ ⟨⟨2, 2⟩, ⟨0, 0, 0⟩⟩ ⟨1, 1, 0⟩
          [StaticCollider.mk ⟨2, 0, 0⟩ ⟨⟨2, 2⟩, ⟨0, 0, 0⟩⟩] =
        ({ (⟨0, 0, 0⟩ : Vec3) with
            y := (⟨0, 0, 0⟩ : Vec3).y + (⟨1, 1, 0⟩ : Vec3).y }, Vec3.zero) :=
  have hx : ∃ ob ∈ [StaticCollider.mk ⟨2, 0, 0⟩ ⟨⟨2, 2⟩, ⟨0, 0, 0⟩⟩],
      collide ((⟨0, 0, 0⟩ : Vec3) + (⟨1, 1, 0⟩ : Vec3) * Vec3.unit_x +
          (⟨⟨2, 2⟩, ⟨0, 0, 0⟩⟩ : BoxCollider).offset) (⟨⟨2, 2⟩, ⟨0, 0, 0⟩⟩ : BoxCollider).size
        (ob.pos + ob.collider.offset) ob.collider.size = true :=
    ⟨StaticCollider.mk ⟨2, 0, 0⟩ ⟨⟨2, 2⟩, ⟨0, 0, 0⟩⟩, List.mem_singleton.mpr rfl, by
      norm_num [collide, Vec3.unit_x, Vec3.add_def, Vec3.mul_def]⟩
  have hy : ∀ ob ∈ [StaticCollider.mk ⟨2, 0, 0⟩ ⟨⟨2, 2⟩, ⟨0, 0, 0⟩⟩],
      collide ((⟨0, 0, 0⟩ : Vec3) + (⟨1, 1, 0⟩ : Vec3) * Vec3.unit_y +
          (⟨⟨2, 2⟩, ⟨0, 0, 0⟩⟩ : BoxCollider).offset) (⟨⟨2, 2⟩, ⟨0, 0, 0⟩⟩ : BoxCollider).size
        (ob.pos + ob.collider.offset) ob.collider.size = false := by
    intro ob hob
    rw [List.mem_singleton] at hob
    subst hob
    norm_num [collide, Vec3.unit_y, Vec3.add_def, Vec3.mul_def]
  ⟨hx, hy,
    (collision_slides ⟨0, 0, 0⟩ ⟨⟨2, 2⟩, ⟨0, 0, 0⟩⟩ ⟨1, 1, 0⟩
      [StaticCollider.mk ⟨2, 0, 0⟩ ⟨⟨2, 2⟩, ⟨0, 0, 0⟩⟩] hx hy).1⟩

/-- Claim C3 counterexample: with the interact key pressed, the cooldown
available, the player carrying nothing, and two simultaneous producer
contacts (entity 1 producing `IceCream`, entity 2 producing `Chips`), a
single tick of `pick_or_drop_system` emits two `ActionEvent`s, refuting
the claim that at most one action event is emitted per tick. -/
theorem at_most_one_action_counterexample :
    ¬((pick_or_drop_system 0 (Cooldown.from_seconds 1) true 0
        [Contact.mk 0 1, Contact.mk 0 2]
        (fun e => if e = 1 then some Item.IceCream else
          if e = 2 then some Item.Chips else none)
        (fun _ => none) (fun _ => none) none).1.length ≤ 1) := by
  decide

/-- Claim C3 (amended): in every tick of `pick_or_drop_system`, at most one
of the three branches (producer, asker, ground) fires: all emitted events
come from the producer branch, or all are `Give`, or the output is exactly
one `Drop`, or exactly one `PickUp` (the producer and asker branches emit
one event per matching contact, so several events can be emitted within
one branch); if any event fires the final cooldown is unavailable, and a
tick that starts with an unavailable cooldown emits nothing. -/
theorem at_most_one_branch (delta : ℚ) (cooldown : Cooldown) (space_pressed : Bool)
    (didi : Entity) (contacts : List Contact)
    (item_producers item_askers items : Entity → Option Item)
    (carried_item : Option Item) :
    ((∀ e ∈ (pick_or_drop_system delta cooldown space_pressed didi contacts
        item_producers item_askers items carried_item).1, e.fromProducerBranch = true) ∨
      (∀ e ∈ (pick_or_drop_system delta cooldown space_pressed didi contacts
        item_producers item_askers items carried_item).1, e.isGive = true) ∨
      (∃ i, (pick_or_drop_system delta cooldown space_pressed didi contacts
        item_producers item_askers items carried_item).1 = [ActionEvent.Drop i]) ∨
      (∃ ent i, (pick_or_drop_system delta cooldown space_pressed didi contacts
        item_producers item_askers items carried_item).1 = [ActionEvent.PickUp ent i])) ∧
      ((pick_or_drop_system delta cooldown space_pressed didi contacts
          item_producers item_askers items carried_item).1 ≠ [] →
        (pick_or_drop_system delta cooldown space_pressed didi contacts
          item_producers item_askers items carried_item).2.available = false) ∧
      ((cooldown.tick delta).available = false →
        (pick_or_drop_system delta cooldown space_pressed didi contacts
          item_producers item_askers items carried_item).1 = []) := by
  by_cases h1 : (!(cooldown.tick delta).available || !space_pressed) = true
  · have hpair : pick_or_drop_system delta cooldown space_pressed didi contacts
        item_producers item_askers items carried_item = ([], cooldown.tick delta) := by
      simp [pick_or_drop_system, h1]
    rw [hpair]
    exact ⟨Or.inl (by simp), by simp, fun _ => rfl⟩
  · have h1' : (!(cooldown.tick delta).available || !space_pressed) = false := by
      simpa using h1
    have hav : (cooldown.tick delta).available = true := by
      rcases Bool.or_eq_false_iff.mp h1' with ⟨ha, _⟩
      simpa using ha
    have hsp : space_pressed = true := by
      rcases Bool.or_eq_false_iff.mp h1' with ⟨_, hs⟩
      simpa using hs
    subst hsp
    cases hP : ((contacts.filter fun contact => contact.fst == didi).filterMap
        fun contact => item_producers contact.snd) with
    | cons pi pis =>
        have hpair : pick_or_drop_system delta cooldown true didi contacts
            item_producers item_askers items carried_item =
            ((pi :: pis).map fun produced_item =>
              match carried_item with
              | some item =>
                  if item = produced_item then ActionEvent.PutAway item
                  else ActionEvent.Keep item
              | none => ActionEvent.Take produced_item,
              (cooldown.tick delta).start) := by
          simp [pick_or_drop_system, h1', hP, hav, Cooldown.start_available]
        rw [hpair]
        refine ⟨Or.inl ?_, fun _ => rfl, by simp [hav]⟩
        intro e he
        obtain ⟨x, _, rfl⟩ := List.mem_map.mp he
        cases carried_item with
        | some item =>
            by_cases hit : item = x <;> simp [hit, ActionEvent.fromProducerBranch]
        | none => rfl
    | nil =>
        cases carried_item with
        | some item =>
            cases hA : ((contacts.filter fun contact => contact.fst == didi).filterMap
                fun contact => item_askers contact.snd) with
            | cons ai ais =>
                have hpair : pick_or_drop_system delta cooldown true didi contacts
                    item_producers item_askers items (some item) =
                    ((ai :: ais).map fun _ => ActionEvent.Give item,
                      (cooldown.tick delta).start) := by
                  simp [pick_or_drop_system, h1', hP, hA, hav, Cooldown.start_available]
                rw [hpair]
                refine ⟨Or.inr (Or.inl ?_), fun _ => rfl, by simp [hav]⟩
                intro e he
                obtain ⟨x, _, rfl⟩ := List.mem_map.mp he
                rfl
            | nil =>
                have hpair : pick_or_drop_system delta cooldown true didi contacts
                    item_producers item_askers items (some item) =
                    ([ActionEvent.Drop item], (cooldown.tick delta).start) := by
                  simp [pick_or_drop_system, h1', hP, hA, hav, Cooldown.start_available]
                rw [hpair]
                exact ⟨Or.inr (Or.inr (Or.inl ⟨item, rfl⟩)), fun _ => rfl, by simp [hav]⟩
        | none =>
            cases hfind : ((contacts.filter fun contact => contact.fst == didi).findSome?
                fun contact => (items contact.snd).map fun item => (contact.snd, item)) with
            | some pr =>
                have hpair : pick_or_drop_system delta cooldown true didi contacts
                    item_producers item_askers items none =
                    ([ActionEvent.PickUp pr.1 pr.2], (cooldown.tick delta).start) := by
                  simp [pick_or_drop_system, h1', hP, hav, hfind, Cooldown.start_available]
                rw [hpair]
                exact ⟨Or.inr (Or.inr (Or.inr ⟨pr.1, pr.2, rfl⟩)), fun _ => rfl,
                  by simp [hav]⟩
            | none =>
                have hpair : pick_or_drop_system delta cooldown true didi contacts
                    item_producers item_askers items none =
                    ([], cooldown.tick delta) := by
                  simp [pick_or_drop_system, h1', hP, hav, hfind]
                rw [hpair]
                exact ⟨Or.inl (by simp), by simp, fun _ => rfl⟩

/-- Witness for claim C3 at the two-producer-contact input. -/
theorem at_most_one_branch_witness :
    ((∀ e ∈ (pick_or_drop_system 0 (Cooldown.from_seconds 1) true 0
        [Contact.mk 0 1, Contact.mk 0 2]
        (fun e => if e = 1 then some Item.IceCream else
          if e = 2 then some Item.Chips else none)
        (fun _ => none) (fun _ => none) none).1, e.fromProducerBranch = true) ∨
      (∀ e ∈ (pick_or_drop_system 0 (Cooldown.from_seconds 1) true 0
        [Contact.mk 0 1, Contact.mk 0 2]
        (fun e => if e = 1 then some Item.IceCream else
          if e = 2 then some Item.Chips else none)
        (fun _ => none) (fun _ => none) none).1, e.isGive = true) ∨
      (∃ i, (pick_or_drop_system 0 (Cooldown.from_seconds 1) true 0
        [Contact.mk 0 1, Contact.mk 0 2]
        (fun e => if e = 1 then some Item.IceCream else
          if e = 2 then some Item.Chips else none)
        (fun _ => none) (fun _ => none) none).1 = [ActionEvent.Drop i]) ∨
      (∃ ent i, (pick_or_drop_system 0 (Cooldown.from_seconds 1) true 0
        [Contact.mk 0 1, Contact.mk 0 2]
        (fun e => if e = 1 then some Item.IceCream else
          if e = 2 then some Item.Chips else none)
        (fun _ => none) (fun _ => none) none).1 = [ActionEvent.PickUp ent i])) ∧
      ((pick_or_drop_system 0 (Cooldown.from_seconds 1) true 0
          [Contact.mk 0 1, Contact.mk 0 2]
          (fun e => if e = 1 then some Item.IceCream else
            if e = 2 then some Item.Chips else none)
          (fun _ => none) (fun _ => none) none).1 ≠ [] →
        (pick_or_drop_system 0 (Cooldown.from_seconds 1) true 0
          [Contact.mk 0 1, Contact.mk 0 2]
          (fun e => if e = 1 then some Item.IceCream else
            if e = 2 then some Item.Chips else none)
          (fun _ => none) (fun _ => none) none).2.available = false) ∧
      (((Cooldown.from_seconds 1).tick 0).available = false →
        (pick_or_drop_system 0 (Cooldown.from_seconds 1) true 0
          [Contact.mk 0 1, Contact.mk 0 2]
          (fun e => if e = 1 then some Item.IceCream else
            if e = 2 then some Item.Chips else none)
          (fun _ => none) (fun _ => none) none).1 = []) :=
  at_most_one_branch 0 (Cooldown.from_seconds 1) true 0 [Contact.mk 0 1, Contact.mk 0 2]
    (fun e => if e = 1 then some Item.IceCream else
      if e = 2 then some Item.Chips else none)
    (fun _ => none) (fun _ => none) none

/-- Claim C4: with the player in contact with a `WaterGlass` producer and a
`WaterGlass` asker, carrying nothing, cooldown available, interact key
pressed, the tick emits exactly `Take(WaterGlass)` and no `Give` fires. -/
theorem producer_priority (delta : ℚ) (cooldown : Cooldown) (didi p a : Entity)
    (item_producers item_askers items : Entity → Option Item)
    (hcav : cooldown.available = true)
    (hprod : item_producers p = some Item.WaterGlass)
    (hpa : item_producers a = none)
    (hask : item_askers a = some Item.WaterGlass) :
    (pick_or_drop_system delta cooldown true didi
        [Contact.mk didi p, Contact.mk didi a]
        item_producers item_askers items none).1 = [ActionEvent.Take Item.WaterGlass] ∧
      ∀ i, ActionEvent.Give i ∉ (pick_or_drop_system delta cooldown true didi
        [Contact.mk didi p, Contact.mk didi a]
        item_producers item_askers items none).1 := by
  have htick : cooldown.tick delta = cooldown := Cooldown.tick_of_available hcav delta
  have hpair : pick_or_drop_system delta cooldown true didi
      [Contact.mk didi p, Contact.mk didi a] item_producers item_askers items none =
      ([ActionEvent.Take Item.WaterGlass], cooldown.start) := by
    simp [pick_or_drop_system, htick, hcav, hprod, hpa, Cooldown.start_available]
  rw [hpair]
  exact ⟨rfl, by simp⟩

/-- Witness for claim C4 at concrete entities and queries. -/
theorem producer_priority_witness :
    ((Cooldown.from_seconds 1).available = true ∧
      (fun e => if e = 1 then some Item.WaterGlass else none) (1 : Entity) =
        some Item.WaterGlass ∧
      (fun e => if e = 1 then some Item.WaterGlass else none) (2 : Entity) = none ∧
      (fun e => if e = 2 then some Item.WaterGlass else none) (2 : Entity) =
        some Item.WaterGlass) ∧
      (pick_or_drop_system 0 (Cooldown.from_seconds 1) true 0
          [Contact.mk 0 1, Contact.mk 0 2]
          (fun e => if e = 1 then some Item.WaterGlass else none)
          (fun e => if e = 2 then some Item.WaterGlass else none)
          (fun _ => none) none).1 = [ActionEvent.Take Item.WaterGlass] ∧
      ∀ i, ActionEvent.Give i ∉ (pick_or_drop_system 0 (Cooldown.from_seconds 1) true 0
        [Contact.mk 0 1, Contact.mk 0 2]
        (fun e => if e = 1 then some Item.WaterGlass else none)
        (fun e => if e = 2 then some Item.WaterGlass else none)
        (fun _ => none) none).1 :=
  ⟨⟨rfl, by decide, by decide, by decide⟩,
    producer_priority 0 (Cooldown.from_seconds 1) 0 1 2
      (fun e => if e = 1 then some Item.WaterGlass else none)
      (fun e => if e = 2 then some Item.WaterGlass else none)
      (fun _ => none) rfl (by decide) (by decide) (by decide)⟩

theorem any_eq_key_mem {l : List Contact} {c : Contact} :
    (l.any fun d => Contact.eq d c) = true ↔ c.key ∈ l.map Contact.key := by
  simp only [List.any_eq_true, List.mem_map]
  constructor
  · rintro ⟨d, hd, he⟩
    exact ⟨d, hd, Contact.eq_iff_key.mp he⟩
  · rintro ⟨d, hd, he⟩
    exact ⟨d, hd, Contact.eq_iff_key.mpr he⟩

theorem mem_insertContact {s : List Contact} {c d : Contact} :
    d ∈ insertContact s c → d ∈ s ∨ d = c := by
  unfold insertContact
  split
  · exact fun h => Or.inl h
  · intro h
    rcases List.mem_append.mp h with h | h
    · exact Or.inl h
    · exact Or.inr (List.mem_singleton.mp h)

theorem keys_insertContact {s : List Contact} {c : Contact} {k : Entity × Entity} :
    k ∈ (insertContact s c).map Contact.key ↔
      k ∈ s.map Contact.key ∨ k = c.key := by
  unfold insertContact
  split
  next h =>
    constructor
    · exact fun hm => Or.inl hm
    · rintro (hm | rfl)
      · exact hm
      · exact any_eq_key_mem.mp h
  next h =>
    simp [List.mem_append]

theorem nodup_keys_insertContact {s : List Contact} {c : Contact}
    (h : (s.map Contact.key).Nodup) : ((insertContact s c).map Contact.key).Nodup := by
  unfold insertContact
  split
  next => exact h
  next hn =>
    have hnk : c.key ∉ s.map Contact.key := fun hmem => hn (any_eq_key_mem.mpr hmem)
    rw [List.map_append, List.map_singleton, List.nodup_append]
    refine ⟨h, List.nodup_singleton _, ?_⟩
    intro k hk hk'
    rw [List.mem_singleton] at hk'
    subst hk'
    exact hnk hk


theorem innerFold_keys (a : MovingCollider) (areas : List TriggerEntry)
    (acc : List Contact) (k : Entity × Entity) :
    (k ∈ (areas.foldl
      (fun acc' b =>
        if collide a.pos a.collider.size b.pos b.area.size then
          insertContact acc' (Contact.mk a.entity b.entity)
        else acc') acc).map Contact.key) ↔
      k ∈ acc.map Contact.key ∨ ∃ b ∈ areas,
        collide a.pos a.collider.size b.pos b.area.size = true ∧
          (Contact.mk a.entity b.entity).key = k := by
  induction areas generalizing acc with
  | nil => simp
  | cons b rest ih =>
      rw [List.foldl_cons, ih]
      by_cases hb : collide a.pos a.collider.size b.pos b.area.size = true
      · simp only [hb, if_true, keys_insertContact, List.mem_cons]
        constructor
        · rintro ((h | h) | ⟨b', hb', h⟩)
          · exact Or.inl h
          · exact Or.inr ⟨b, Or.inl rfl, hb, h.symm⟩
          · exact Or.inr ⟨b', Or.inr hb', h⟩
        · rintro (h | ⟨b', hb' | hb', h, hk⟩)
          · exact Or.inl (Or.inl h)
          · subst hb'
            exact Or.inl (Or.inr hk.symm)
          · exact Or.inr ⟨b', hb', h, hk⟩
      · simp only [hb, if_false, List.mem_cons]
        constructor
        · rintro (h | ⟨b', hb', h⟩)
          · exact Or.inl h
          · exact Or.inr ⟨b', Or.inr hb', h⟩
        · rintro (h | ⟨b', hb' | hb', h, hk⟩)
          · exact Or.inl h
          · subst hb'
            exact absurd h hb
          · exact Or.inr ⟨b', hb', h, hk⟩

theorem innerFold_mem (a : MovingCollider) (areas : List TriggerEntry)
    (acc : List Contact) (d : Contact) :
    d ∈ areas.foldl
      (fun acc' b =>
        if collide a.pos a.collider.size b.pos b.area.size then
          insertContact acc' (Contact.mk a.entity b.entity)
        else acc') acc →
      d ∈ acc ∨ ∃ b ∈ areas, d = Contact.mk a.entity b.entity := by
  induction areas generalizing acc with
  | nil => exact fun h => Or.inl h
  | cons b rest ih =>
      rw [List.foldl_cons]
      intro h
      rcases ih _ h with h' | ⟨b', hb', rfl⟩
      · by_cases hb : collide a.pos a.collider.size b.pos b.area.size = true
        · rw [hb, if_pos rfl] at h'
          rcases mem_insertContact h' with h'' | rfl
          · exact Or.inl h''
          · exact Or.inr ⟨b, List.mem_cons_self _ _, rfl⟩
        · rw [Bool.not_eq_true] at hb
          rw [hb] at h'
          simp only [Bool.false_eq_true, if_false] at h'
          exact Or.inl h'
      · exact Or.inr ⟨b', List.mem_cons_of_mem _ hb', rfl⟩

theorem innerFold_nodup (a : MovingCollider) (areas : List TriggerEntry)
    (acc : List Contact) (h : (acc.map Contact.key).Nodup) :
    ((areas.foldl
      (fun acc' b =>
        if collide a.pos a.collider.size b.pos b.area.size then
          insertContact acc' (Contact.mk a.entity b.entity)
        else acc') acc).map Contact.key).Nodup := by
  induction areas generalizing acc with
  | nil => exact h
  | cons b rest ih =>
      rw [List.foldl_cons]
      apply ih
      split
      · exact nodup_keys_insertContact h
      · exact h


theorem collect_keys (movers : List MovingCollider) (areas : List TriggerEntry)
    (k : Entity × Entity) :
    (k ∈ (collectTriggerContacts movers areas).map Contact.key) ↔
      ∃ a ∈ movers, ∃ b ∈ areas,
        collide a.pos a.collider.size b.pos b.area.size = true ∧
          (Contact.mk a.entity b.entity).key = k := by
  have hout : ∀ (ms : List MovingCollider) (acc : List Contact),
      (k ∈ (ms.foldl
        (fun acc a =>
          areas.foldl
            (fun acc' b =>
              if collide a.pos a.collider.size b.pos b.area.size then
                insertContact acc' (Contact.mk a.entity b.entity)
              else acc')
            acc) acc).map Contact.key) ↔
        k ∈ acc.map Contact.key ∨ ∃ a ∈ ms, ∃ b ∈ areas,
          collide a.pos a.collider.size b.pos b.area.size = true ∧
            (Contact.mk a.entity b.entity).key = k := by
    intro ms
    induction ms with
    | nil => simp
    | cons a rest ih =>
        intro acc
        rw [List.foldl_cons, ih, innerFold_keys]
        constructor
        · rintro ((h | ⟨b, hb, hc, hk⟩) | ⟨a', ha', b, hb, hc, hk⟩)
          · exact Or.inl h
          · exact Or.inr ⟨a, List.mem_cons_self _ _, b, hb, hc, hk⟩
          · exact Or.inr ⟨a', List.mem_cons_of_mem _ ha', b, hb, hc, hk⟩
        · rintro (h | ⟨a', ha', b, hb, hc, hk⟩)
          · exact Or.inl (Or.inl h)
          · rcases List.mem_cons.mp ha' with rfl | ha'
            · exact Or.inl (Or.inr ⟨b, hb, hc, hk⟩)
            · exact Or.inr ⟨a', ha', b, hb, hc, hk⟩
  unfold collectTriggerContacts
  rw [hout]
  simp

theorem mem_collect (movers : List MovingCollider) (areas : List TriggerEntry)
    (d : Contact) :
    d ∈ collectTriggerContacts movers areas →
      ∃ a ∈ movers, ∃ b ∈ areas, d = Contact.mk a.entity b.entity := by
  have hout : ∀ (ms : List MovingCollider) (acc : List Contact),
      d ∈ ms.foldl
        (fun acc a =>
          areas.foldl
            (fun acc' b =>
              if collide a.pos a.collider.size b.pos b.area.size then
                insertContact acc' (Contact.mk a.entity b.entity)
              else acc')
            acc) acc →
        d ∈ acc ∨ ∃ a ∈ ms, ∃ b ∈ areas, d = Contact.mk a.entity b.entity := by
    intro ms
    induction ms with
    | nil => exact fun _ h => Or.inl h
    | cons a rest ih =>
        intro acc h
        rcases ih _ h with h' | ⟨a', ha', b, hb, rfl⟩
        · rcases innerFold_mem a areas acc d h' with h'' | ⟨b, hb, rfl⟩
          · exact Or.inl h''
          · exact Or.inr ⟨a, List.mem_cons_self _ _, b, hb, rfl⟩
        · exact Or.inr ⟨a', List.mem_cons_of_mem _ ha', b, hb, rfl⟩
  intro h
  rcases hout movers [] h with h' | h'
  · exact absurd h' (List.not_mem_nil d)
  · exact h'

theorem collect_nodup (movers : List MovingCollider) (areas : List TriggerEntry) :
    ((collectTriggerContacts movers areas).map Contact.key).Nodup := by
  have hout : ∀ (ms : List MovingCollider) (acc : List Contact),
      (acc.map Contact.key).Nodup →
        ((ms.foldl
          (fun acc a =>
            areas.foldl
              (fun acc' b =>
                if collide a.pos a.collider.size b.pos b.area.size then
                  insertContact acc' (Contact.mk a.entity b.entity)
                else acc')
              acc) acc).map Contact.key).Nodup := by
    intro ms
    induction ms with
    | nil => exact fun _ h => h
    | cons a rest ih =>
        intro acc hacc
        rw [List.foldl_cons]
        exact ih _ (innerFold_nodup a areas acc hacc)
  exact hout movers [] (by simp)


theorem collectMap_eq_self {records : List (Contact × Entity)}
    (h : (records.map fun r => r.1.key).Nodup) : collectMap records = records := by
  have hgen : ∀ (rs acc : List (Contact × Entity)),
      (((acc ++ rs).map fun r => r.1.key).Nodup) →
        rs.foldl (fun m p => insertMapEntry m p.1 p.2) acc = acc ++ rs := by
    intro rs
    induction rs with
    | nil => intro acc _; simp
    | cons r rest ih =>
        intro acc hacc
        rw [List.foldl_cons]
        have hnotin : ¬(acc.any fun p => Contact.eq p.1 r.1) = true := by
          intro hany
          rcases List.any_eq_true.mp hany with ⟨p, hp, hpe⟩
          have hkeys : ((acc.map fun r => r.1.key) ++
              (r.1.key :: (rest.map fun r => r.1.key))).Nodup := by
            simpa [List.map_append] using hacc
          have hmid := List.nodup_cons.mp (List.nodup_middle.mp hkeys)
          have : r.1.key ∉ acc.map fun r => r.1.key :=
            fun hmem => hmid.1 (List.mem_append_left _ hmem)
          exact this (Contact.eq_iff_key.mp hpe ▸ List.mem_map_of_mem _ hp)
        have hins : insertMapEntry acc r.1 r.2 = acc ++ [r] := by
          unfold insertMapEntry
          rw [if_neg hnotin]
        rw [hins, ih (acc ++ [r]) (by simpa using hacc)]
        simp
  simpa using hgen records [] (by simpa using h)

theorem lookupMap_of_mem {records : List (Contact × Entity)}
    (h : (records.map fun r => r.1.key).Nodup) :
    ∀ r ∈ records, lookupMap records r.1 = some r.2 := by
  induction records with
  | nil => intro r hr; exact absurd hr (List.not_mem_nil r)
  | cons p rest ih =>
      intro r hr
      rcases List.mem_cons.mp hr with rfl | hr'
      · unfold lookupMap
        rw [if_pos (Contact.eq_self _)]
      · unfold lookupMap
        have hne : ¬Contact.eq p.1 r.1 = true := by
          intro he
          have hkey : p.1.key = r.1.key := Contact.eq_iff_key.mp he
          have hmem : p.1.key ∈ rest.map fun r => r.1.key :=
            hkey ▸ List.mem_map_of_mem _ hr'
          simp only [List.map_cons, List.nodup_cons] at h
          exact h.1 hmem
        rw [if_neg hne]
        simp only [List.map_cons, List.nodup_cons] at h
        exact ih h.2 r hr'

theorem filterMap_map_eq {α β γ : Type} {l : List α} {f : α → β} {g : β → Option γ}
    {h : α → γ} (H : ∀ x ∈ l, g (f x) = some (h x)) :
    (l.map f).filterMap g = l.map h := by
  induction l with
  | nil => rfl
  | cons x rest ih =>
      simp only [List.map_cons, List.filterMap_cons, H x (List.mem_cons_self x rest)]
      rw [ih fun y hy => H y (List.mem_cons_of_mem x hy)]


theorem trigger_area_system_WF_eq (movers : List MovingCollider)
    (areas : List TriggerEntry) (s : TriggerState)
    (hkey : (s.records.map fun r => r.1.key).Nodup)
    (hsnd : (s.records.map Prod.snd).Nodup) :
    trigger_area_system movers areas s =
      (((collectTriggerContacts movers areas).filter fun c =>
          !(s.records.map Prod.fst).any fun d => Contact.eq d c).map ContactEvent.Started ++
        ((s.records.map Prod.fst).filter fun c =>
          !(collectTriggerContacts movers areas).any fun d => Contact.eq d c).map
            ContactEvent.Stopped,
       ⟨(s.records.filter fun r =>
            (collectTriggerContacts movers areas).any fun d => Contact.eq d r.1) ++
          assignIds ((collectTriggerContacts movers areas).filter fun c =>
            !(s.records.map Prod.fst).any fun d => Contact.eq d c) s.nextId,
        s.nextId + ((collectTriggerContacts movers areas).filter fun c =>
          !(s.records.map Prod.fst).any fun d => Contact.eq d c).length⟩) := by
  have hdesp : (((s.records.map Prod.fst).filter fun c =>
      !(collectTriggerContacts movers areas).any fun d => Contact.eq d c).filterMap
        fun c => lookupMap s.records c) =
      (s.records.filter fun r =>
        !(collectTriggerContacts movers areas).any fun d => Contact.eq d r.1).map
          Prod.snd := by
    rw [List.filter_map]
    exact filterMap_map_eq fun r hr => lookupMap_of_mem hkey r (List.mem_of_mem_filter hr)
  have hcontains : ∀ r ∈ s.records,
      (((s.records.filter fun r' =>
          !(collectTriggerContacts movers areas).any fun d => Contact.eq d r'.1).map
            Prod.snd).contains r.2) =
        !((collectTriggerContacts movers areas).any fun d => Contact.eq d r.1) := by
    intro r hr
    by_cases hQ : (!(collectTriggerContacts movers areas).any
        fun d => Contact.eq d r.1) = true
    · rw [hQ]
      have hmem : r.2 ∈ (s.records.filter fun r' =>
          !(collectTriggerContacts movers areas).any fun d => Contact.eq d r'.1).map
            Prod.snd :=
        List.mem_map_of_mem _ (List.mem_filter.mpr ⟨hr, hQ⟩)
      simpa using hmem
    · have hQ' : (!(collectTriggerContacts movers areas).any
          fun d => Contact.eq d r.1) = false := by
        simpa using hQ
      rw [hQ']
      rw [← Bool.not_eq_true]
      intro hc
      have hmem : r.2 ∈ (s.records.filter fun r' =>
          !(collectTriggerContacts movers areas).any fun d => Contact.eq d r'.1).map
            Prod.snd := by
        simpa using hc
      obtain ⟨r', hr', hsnd'⟩ := List.mem_map.mp hmem
      have hr'rec := List.mem_of_mem_filter hr'
      have heq : r' = r := List.inj_on_of_nodup_map hsnd hr'rec hr hsnd'
      subst heq
      have hfil := (List.mem_filter.mp hr').2
      rw [hQ'] at hfil
      exact Bool.false_ne_true hfil
  have hkept : (s.records.filter fun r =>
      !(((s.records.filter fun r' =>
        !(collectTriggerContacts movers areas).any fun d => Contact.eq d r'.1).map
          Prod.snd).contains r.2)) =
      s.records.filter fun r =>
        (collectTriggerContacts movers areas).any fun d => Contact.eq d r.1 := by
    apply List.filter_congr
    intro r hr
    rw [hcontains r hr]
    simp
  have hmap : collectMap s.records = s.records := collectMap_eq_self hkey
  simp only [trigger_area_system, hmap]
  rw [hdesp, hkept]


theorem assignIds_map_fst (cs : List Contact) (base : Entity) :
    (assignIds cs base).map Prod.fst = cs := by
  induction cs generalizing base with
  | nil => rfl
  | cons c rest ih => simp [assignIds, ih]

theorem assignIds_snd_bound (cs : List Contact) (base : Entity) :
    ∀ p ∈ assignIds cs base, base ≤ p.2 ∧ p.2 < base + cs.length := by
  induction cs generalizing base with
  | nil => intro p hp; exact absurd hp (List.not_mem_nil p)
  | cons c rest ih =>
      intro p hp
      rcases List.mem_cons.mp hp with rfl | hp'
      · simp
      · have hb := ih (base + 1) p hp'
        constructor
        · exact le_trans (Nat.le_succ base) hb.1
        · simpa [Nat.add_comm, Nat.add_assoc, Nat.add_left_comm] using hb.2
  
theorem assignIds_snd_nodup (cs : List Contact) (base : Entity) :
    ((assignIds cs base).map Prod.snd).Nodup := by
  induction cs generalizing base with
  | nil => exact List.nodup_nil
  | cons c rest ih =>
      simp only [assignIds, List.map_cons, List.nodup_cons]
      refine ⟨?_, ih (base + 1)⟩
      intro hmem
      obtain ⟨p, hp, hpe⟩ := List.mem_map.mp hmem
      have hb := (assignIds_snd_bound rest (base + 1) p hp).1
      rw [hpe] at hb
      exact Nat.not_succ_le_self base hb

theorem assignIds_mem_of_mem {cs : List Contact} {c : Contact} (base : Entity)
    (h : c ∈ cs) : ∃ e, (c, e) ∈ assignIds cs base ∧ base ≤ e := by
  induction cs generalizing base with
  | nil => exact absurd h (List.not_mem_nil c)
  | cons d rest ih =>
      rcases List.mem_cons.mp h with rfl | h'
      · exact ⟨base, List.mem_cons_self _ _, le_refl base⟩
      · obtain ⟨e, he, hbe⟩ := ih (base + 1) h'
        exact ⟨e, List.mem_cons_of_mem _ he, Nat.le_of_succ_le hbe⟩


theorem assignIds_keys (cs : List Contact) (base : Entity) :
    ((assignIds cs base).map fun r => r.1.key) = cs.map Contact.key := by
  induction cs generalizing base with
  | nil => rfl
  | cons c rest ih => simp [assignIds, ih]

theorem map_key_fst (l : List (Contact × Entity)) :
    ((l.map Prod.fst).map Contact.key) = l.map fun r => r.1.key := by
  rw [List.map_map]
  rfl

theorem step_records_keys (movers : List MovingCollider) (areas : List TriggerEntry)
    (s : TriggerState) (hkey : (s.records.map fun r => r.1.key).Nodup)
    (hsnd : (s.records.map Prod.snd).Nodup) (k : Entity × Entity) :
    (k ∈ (trigger_area_system movers areas s).2.records.map fun r => r.1.key) ↔
      k ∈ (collectTriggerContacts movers areas).map Contact.key := by
  rw [trigger_area_system_WF_eq movers areas s hkey hsnd]
  simp only [List.map_append, List.mem_append, assignIds_keys]
  constructor
  · rintro (h | h)
    · obtain ⟨r, hr, rfl⟩ := List.mem_map.mp h
      exact any_eq_key_mem.mp (List.mem_filter.mp hr).2
    · obtain ⟨c, hc, rfl⟩ := List.mem_map.mp h
      exact List.mem_map_of_mem _ (List.mem_of_mem_filter hc)
  · intro h
    by_cases hprev : k ∈ s.records.map fun r => r.1.key
    · left
      obtain ⟨r, hr, rfl⟩ := List.mem_map.mp hprev
      exact List.mem_map_of_mem _ (List.mem_filter.mpr ⟨hr, any_eq_key_mem.mpr h⟩)
    · right
      obtain ⟨c, hc, rfl⟩ := List.mem_map.mp h
      refine List.mem_map_of_mem _ (List.mem_filter.mpr ⟨hc, ?_⟩)
      cases hany : ((s.records.map Prod.fst).any fun d => Contact.eq d c)
      · rfl
      · exfalso
        have hmem := any_eq_key_mem.mp hany
        rw [map_key_fst] at hmem
        exact hprev hmem

theorem WF_step (movers : List MovingCollider) (areas : List TriggerEntry)
    (s : TriggerState) (h : s.WF) : (trigger_area_system movers areas s).2.WF := by
  obtain ⟨hkey, hsnd, hbound⟩ := h
  rw [trigger_area_system_WF_eq movers areas s hkey hsnd]
  refine ⟨?_, ?_, ?_⟩
  · simp only [List.map_append, assignIds_keys]
    rw [List.nodup_append]
    refine ⟨hkey.sublist (List.Sublist.map _ (List.filter_sublist _)),
      (collect_nodup movers areas).sublist (List.Sublist.map _ (List.filter_sublist _)),
      ?_⟩
    intro k hk hk'
    obtain ⟨r, hr, rfl⟩ := List.mem_map.mp hk
    obtain ⟨c, hc, hck⟩ := List.mem_map.mp hk'
    have hnotprev := (List.mem_filter.mp hc).2
    have hprev : c.key ∈ (s.records.map Prod.fst).map Contact.key := by
      rw [map_key_fst, hck]
      exact List.mem_map_of_mem _ (List.mem_of_mem_filter hr)
    rw [Bool.not_eq_true'] at hnotprev
    rw [← any_eq_key_mem] at hprev
    rw [hnotprev] at hprev
    exact Bool.false_ne_true hprev
  · simp only [List.map_append]
    rw [List.nodup_append]
    refine ⟨hsnd.sublist (List.Sublist.map _ (List.filter_sublist _)),
      assignIds_snd_nodup _ _, ?_⟩
    intro e he he'
    obtain ⟨r, hr, rfl⟩ := List.mem_map.mp he
    obtain ⟨p, hp, hpe⟩ := List.mem_map.mp he'
    have hlt := hbound r (List.mem_of_mem_filter hr)
    have hge := (assignIds_snd_bound _ _ p hp).1
    rw [hpe] at hge
    exact Nat.lt_irrefl _ (lt_of_lt_of_le hlt hge)
  · intro r hr
    rcases List.mem_append.mp hr with hr' | hr'
    · exact lt_of_lt_of_le (hbound r (List.mem_of_mem_filter hr')) (Nat.le_add_right _ _)
    · exact (assignIds_snd_bound _ _ r hr').2

theorem reachable_WF {s : TriggerState} (h : s.Reachable) : s.WF := by
  induction h with
  | init =>
      refine ⟨List.nodup_nil, List.nodup_nil, ?_⟩
      intro r hr
      exact absurd hr (List.not_mem_nil r)
  | step movers areas s _ ih => exact WF_step movers areas s ih


theorem keys_filter_not_any (next prev : List Contact) (k : Entity × Entity) :
    (k ∈ (next.filter fun c => !prev.any fun d => Contact.eq d c).map Contact.key) ↔
      (k ∈ next.map Contact.key ∧ k ∉ prev.map Contact.key) := by
  simp only [List.mem_map, List.mem_filter]
  constructor
  · rintro ⟨c', ⟨hc', hna⟩, rfl⟩
    refine ⟨⟨c', hc', rfl⟩, ?_⟩
    rintro ⟨a, ha, hak⟩
    rw [Bool.not_eq_true'] at hna
    exact List.any_eq_false.mp hna a ha (Contact.eq_iff_key.mpr hak)
  · rintro ⟨⟨c', hc', rfl⟩, hout⟩
    refine ⟨c', ⟨hc', ?_⟩, rfl⟩
    rw [Bool.not_eq_true', List.any_eq_false]
    intro a ha hae
    exact hout ⟨a, ha, Contact.eq_iff_key.mp hae⟩

theorem started_mem_iff (movers : List MovingCollider) (areas : List TriggerEntry)
    (s : TriggerState) (hkey : (s.records.map fun r => r.1.key).Nodup)
    (hsnd : (s.records.map Prod.snd).Nodup) (c' : Contact) :
    ContactEvent.Started c' ∈ (trigger_area_system movers areas s).1 ↔
      c' ∈ (collectTriggerContacts movers areas).filter fun c =>
        !(s.records.map Prod.fst).any fun d => Contact.eq d c := by
  rw [trigger_area_system_WF_eq movers areas s hkey hsnd]
  simp

theorem stopped_mem_iff (movers : List MovingCollider) (areas : List TriggerEntry)
    (s : TriggerState) (hkey : (s.records.map fun r => r.1.key).Nodup)
    (hsnd : (s.records.map Prod.snd).Nodup) (c' : Contact) :
    ContactEvent.Stopped c' ∈ (trigger_area_system movers areas s).1 ↔
      c' ∈ (s.records.map Prod.fst).filter fun c =>
        !(collectTriggerContacts movers areas).any fun d => Contact.eq d c := by
  rw [trigger_area_system_WF_eq movers areas s hkey hsnd]
  simp


/-- Claim C2: after one contact-diffing pass from any reachable contact
store, at most one Contact record exists per unordered entity pair (the
canonical keys of the persisted records are pairwise distinct), and the
persisted set equals exactly the set of (moving-collider, trigger-area)
pairs whose boxes overlap at the positions seen that tick. -/
theorem contact_store_matches_overlaps (s : TriggerState)
    (h : TriggerState.Reachable s) (movers : List MovingCollider)
    (areas : List TriggerEntry) :
    (((trigger_area_system movers areas s).2.records.map fun r => r.1.key).Nodup) ∧
      ∀ k, (k ∈ (trigger_area_system movers areas s).2.records.map fun r => r.1.key) ↔
        ∃ a ∈ movers, ∃ b ∈ areas,
          collide a.pos a.collider.size b.pos b.area.size = true ∧
            (Contact.mk a.entity b.entity).key = k := by
  obtain ⟨hkey, hsnd, hbound⟩ := reachable_WF h
  refine ⟨(WF_step movers areas s ⟨hkey, hsnd, hbound⟩).1, ?_⟩
  intro k
  rw [step_records_keys movers areas s hkey hsnd k, collect_keys]

/-- Witness for claim C2 at the initial empty store and empty queries. -/
theorem contact_store_matches_overlaps_witness :
    TriggerState.Reachable ⟨[], 0⟩ ∧
      ((((trigger_area_system [] [] ⟨[], 0⟩).2.records.map fun r => r.1.key).Nodup) ∧
        ∀ k, (k ∈ (trigger_area_system [] [] ⟨[], 0⟩).2.records.map fun r => r.1.key) ↔
          ∃ a ∈ ([] : List MovingCollider), ∃ b ∈ ([] : List TriggerEntry),
            collide a.pos a.collider.size b.pos b.area.size = true ∧
              (Contact.mk a.entity b.entity).key = k) :=
  ⟨TriggerState.Reachable.init,
    contact_store_matches_overlaps ⟨[], 0⟩ TriggerState.Reachable.init [] []⟩


theorem records_mem_iff (movers : List MovingCollider) (areas : List TriggerEntry)
    (s : TriggerState) (hkey : (s.records.map fun r => r.1.key).Nodup)
    (hsnd : (s.records.map Prod.snd).Nodup) (r : Contact × Entity) :
    r ∈ (trigger_area_system movers areas s).2.records ↔
      (r ∈ s.records ∧
        ((collectTriggerContacts movers areas).any fun d => Contact.eq d r.1) = true) ∨
        r ∈ assignIds ((collectTriggerContacts movers areas).filter fun c =>
          !(s.records.map Prod.fst).any fun d => Contact.eq d c) s.nextId := by
  rw [trigger_area_system_WF_eq movers areas s hkey hsnd]
  simp [List.mem_filter]

/-- Claim C1: one contact-diffing pass over a well-formed store emits a
`Started` event exactly for every contact key in the fresh set but not the
persisted set (and creates a new persisted record with a fresh backing
entity for it), emits a `Stopped` event exactly for every key in the
persisted set but not the fresh set (and removes its persisted record),
and for keys present in both sets emits no event and neither creates nor
removes any record. -/
theorem contact_diffing_pass (movers : List MovingCollider)
    (areas : List TriggerEntry) (s : TriggerState) (hWF : s.WF) (c : Contact) :
    ((∃ c', ContactEvent.Started c' ∈ (trigger_area_system movers areas s).1 ∧
        c'.key = c.key) ↔
      (c.key ∈ (collectTriggerContacts movers areas).map Contact.key ∧
        c.key ∉ s.records.map fun r => r.1.key)) ∧
    ((∃ c', ContactEvent.Stopped c' ∈ (trigger_area_system movers areas s).1 ∧
        c'.key = c.key) ↔
      ((c.key ∈ s.records.map fun r => r.1.key) ∧
        c.key ∉ (collectTriggerContacts movers areas).map Contact.key)) ∧
    (c.key ∈ (collectTriggerContacts movers areas).map Contact.key ∧
        (c.key ∉ s.records.map fun r => r.1.key) →
      ∃ r ∈ (trigger_area_system movers areas s).2.records,
        r.1.key = c.key ∧ r.2 ∉ s.records.map Prod.snd) ∧
    ((c.key ∈ s.records.map fun r => r.1.key) ∧
        c.key ∉ (collectTriggerContacts movers areas).map Contact.key →
      ∀ r ∈ (trigger_area_system movers areas s).2.records, r.1.key ≠ c.key) ∧
    (c.key ∈ (collectTriggerContacts movers areas).map Contact.key ∧
        (c.key ∈ s.records.map fun r => r.1.key) →
      (∀ c', ContactEvent.Started c' ∈ (trigger_area_system movers areas s).1 →
        c'.key ≠ c.key) ∧
      (∀ c', ContactEvent.Stopped c' ∈ (trigger_area_system movers areas s).1 →
        c'.key ≠ c.key) ∧
      (∀ r ∈ s.records, r.1.key = c.key →
        r ∈ (trigger_area_system movers areas s).2.records) ∧
      (∀ r ∈ (trigger_area_system movers areas s).2.records, r.1.key = c.key →
        r ∈ s.records)) := by
  obtain ⟨hkey, hsnd, hbound⟩ := hWF
  have hA : (∃ c', ContactEvent.Started c' ∈ (trigger_area_system movers areas s).1 ∧
      c'.key = c.key) ↔
      (c.key ∈ (collectTriggerContacts movers areas).map Contact.key ∧
        c.key ∉ s.records.map fun r => r.1.key) := by
    constructor
    · rintro ⟨c', hm, hck⟩
      rw [started_mem_iff movers areas s hkey hsnd] at hm
      have hkmem := List.mem_map_of_mem Contact.key hm
      rw [hck] at hkmem
      have := (keys_filter_not_any _ _ c.key).mp hkmem
      rw [map_key_fst] at this
      exact this
    · rintro ⟨h1, h2⟩
      have h2' : c.key ∉ (s.records.map Prod.fst).map Contact.key := by
        rw [map_key_fst]
        exact h2
      have hkmem := (keys_filter_not_any _ _ c.key).mpr ⟨h1, h2'⟩
      obtain ⟨c', hc', hck⟩ := List.mem_map.mp hkmem
      exact ⟨c', (started_mem_iff movers areas s hkey hsnd c').mpr hc', hck⟩
  have hB : (∃ c', ContactEvent.Stopped c' ∈ (trigger_area_system movers areas s).1 ∧
      c'.key = c.key) ↔
      ((c.key ∈ s.records.map fun r => r.1.key) ∧
        c.key ∉ (collectTriggerContacts movers areas).map Contact.key) := by
    constructor
    · rintro ⟨c', hm, hck⟩
      rw [stopped_mem_iff movers areas s hkey hsnd] at hm
      have hkmem := List.mem_map_of_mem Contact.key hm
      rw [hck] at hkmem
      have := (keys_filter_not_any _ _ c.key).mp hkmem
      rw [map_key_fst] at this
      exact this
    · rintro ⟨h1, h2⟩
      have h1' : c.key ∈ (s.records.map Prod.fst).map Contact.key := by
        rw [map_key_fst]
        exact h1
      have hkmem := (keys_filter_not_any _ _ c.key).mpr ⟨h1', h2⟩
      obtain ⟨c', hc', hck⟩ := List.mem_map.mp hkmem
      exact ⟨c', (stopped_mem_iff movers areas s hkey hsnd c').mpr hc', hck⟩
  refine ⟨hA, hB, ?_, ?_, ?_⟩
  · rintro ⟨h1, h2⟩
    have h2' : c.key ∉ (s.records.map Prod.fst).map Contact.key := by
      rw [map_key_fst]
      exact h2
    have hkmem := (keys_filter_not_any _ _ c.key).mpr ⟨h1, h2'⟩
    obtain ⟨c', hc', hck⟩ := List.mem_map.mp hkmem
    obtain ⟨e, he, hbe⟩ := assignIds_mem_of_mem s.nextId hc'
    refine ⟨(c', e), (records_mem_iff movers areas s hkey hsnd _).mpr (Or.inr he),
      hck, ?_⟩
    intro hmem
    obtain ⟨r', hr', hre⟩ := List.mem_map.mp hmem
    have hlt := hbound r' hr'
    rw [hre] at hlt
    exact Nat.lt_irrefl _ (lt_of_lt_of_le hlt hbe)
  · rintro ⟨h1, h2⟩ r hr hrk
    rcases (records_mem_iff movers areas s hkey hsnd r).mp hr with ⟨_, hany⟩ | hassign
    · have := any_eq_key_mem.mp hany
      rw [hrk] at this
      exact h2 this
    · have hfst : r.1 ∈ (collectTriggerContacts movers areas).filter fun c' =>
          !(s.records.map Prod.fst).any fun d => Contact.eq d c' := by
        have := List.mem_map_of_mem Prod.fst hassign
        rwa [assignIds_map_fst] at this
      have hk := (keys_filter_not_any _ _ r.1.key).mp (List.mem_map_of_mem _ hfst)
      rw [hrk] at hk
      exact hk.2 (by rw [map_key_fst]; exact h1)
  · rintro ⟨h1, h2⟩
    refine ⟨?_, ?_, ?_, ?_⟩
    · intro c' hm hck
      exact (hA.mp ⟨c', hm, hck⟩).2 h2
    · intro c' hm hck
      exact (hB.mp ⟨c', hm, hck⟩).2 h1
    · intro r hr hrk
      refine (records_mem_iff movers areas s hkey hsnd r).mpr (Or.inl ⟨hr, ?_⟩)
      apply any_eq_key_mem.mpr
      rw [hrk]
      exact h1
    · intro r hr hrk
      rcases (records_mem_iff movers areas s hkey hsnd r).mp hr with ⟨hmem, _⟩ | hassign
      · exact hmem
      · exfalso
        have hfst : r.1 ∈ (collectTriggerContacts movers areas).filter fun c' =>
            !(s.records.map Prod.fst).any fun d => Contact.eq d c' := by
          have := List.mem_map_of_mem Prod.fst hassign
          rwa [assignIds_map_fst] at this
        have hk := (keys_filter_not_any _ _ r.1.key).mp (List.mem_map_of_mem _ hfst)
        rw [hrk] at hk
        exact hk.2 (by rw [map_key_fst]; exact h2)


theorem mem_insertMapEntry_fst {m : List (Contact × Entity)} {c : Contact}
    {e : Entity} {p : Contact × Entity} :
    p ∈ insertMapEntry m c e → p.1 ∈ m.map Prod.fst ∨ p.1 = c := by
  unfold insertMapEntry
  split
  · intro hp
    obtain ⟨q, hq, hqe⟩ := List.mem_map.mp hp
    left
    split at hqe
    · rw [← hqe]
      exact (List.mem_map_of_mem Prod.fst hq : q.1 ∈ m.map Prod.fst)
    · rw [← hqe]
      exact List.mem_map_of_mem _ hq
  · intro hp
    rcases List.mem_append.mp hp with hp | hp
    · exact Or.inl (List.mem_map_of_mem _ hp)
    · rw [List.mem_singleton] at hp
      subst hp
      exact Or.inr rfl

theorem mem_collectMap_fst {records : List (Contact × Entity)} {p : Contact × Entity} :
    p ∈ collectMap records → p.1 ∈ records.map Prod.fst := by
  have hgen : ∀ (rs acc : List (Contact × Entity)),
      p ∈ rs.foldl (fun m q => insertMapEntry m q.1 q.2) acc →
        p.1 ∈ acc.map Prod.fst ∨ p.1 ∈ rs.map Prod.fst := by
    intro rs
    induction rs with
    | nil => exact fun acc h => Or.inl (List.mem_map_of_mem _ h)
    | cons q rest ih =>
        intro acc h
        rw [List.foldl_cons] at h
        rcases ih _ h with h' | h'
        · obtain ⟨p', hp', hpe⟩ := List.mem_map.mp h'
          rcases mem_insertMapEntry_fst hp' with h'' | h''
          · rw [← hpe]
            exact Or.inl h''
          · rw [← hpe, h'']
            exact Or.inr (List.mem_cons_self _ _ |> List.mem_map_of_mem Prod.fst)
        · right
          simp only [List.map_cons, List.mem_cons]
          exact Or.inr h'
  intro h
  rcases hgen records [] h with h' | h'
  · simp at h'
  · exact h'

theorem started_event_subset (movers : List MovingCollider) (areas : List TriggerEntry)
    (s : TriggerState) (c' : Contact) :
    ContactEvent.Started c' ∈ (trigger_area_system movers areas s).1 →
      c' ∈ collectTriggerContacts movers areas := by
  intro hm
  simp only [trigger_area_system, List.mem_append, List.mem_map] at hm
  rcases hm with ⟨x, hx, heq⟩ | ⟨x, hx, heq⟩
  · have hxe : x = c' := by injection heq
    subst hxe
    exact List.mem_of_mem_filter hx
  · exact absurd heq (by simp)

theorem stopped_event_subset (movers : List MovingCollider) (areas : List TriggerEntry)
    (s : TriggerState) (c' : Contact) :
    ContactEvent.Stopped c' ∈ (trigger_area_system movers areas s).1 →
      c' ∈ (collectMap s.records).map Prod.fst := by
  intro hm
  simp only [trigger_area_system, List.mem_append, List.mem_map] at hm
  rcases hm with ⟨x, hx, heq⟩ | ⟨x, hx, heq⟩
  · exact absurd heq (by simp)
  · have hxe : x = c' := by injection heq
    subst hxe
    exact List.mem_of_mem_filter hx

theorem record_subset (movers : List MovingCollider) (areas : List TriggerEntry)
    (s : TriggerState) (r : Contact × Entity) :
    r ∈ (trigger_area_system movers areas s).2.records →
      r ∈ s.records ∨ r.1 ∈ collectTriggerContacts movers areas := by
  intro hm
  simp only [trigger_area_system, List.mem_append] at hm
  rcases hm with hm | hm
  · exact Or.inl (List.mem_of_mem_filter hm)
  · right
    have := List.mem_map_of_mem Prod.fst hm
    rw [assignIds_map_fst] at this
    exact List.mem_of_mem_filter this


/-- Claim C7 (amended): provided no entity carries both a moving collider
and a trigger area (the two query result sets are entity-disjoint) and no
persisted record is a self-pair, a contact-diffing pass reports no
self-pair: every emitted event and every persisted record after the pass
has two distinct members. -/
theorem no_self_contact (movers : List MovingCollider) (areas : List TriggerEntry)
    (s : TriggerState)
    (hdisj : ∀ a ∈ movers, ∀ b ∈ areas, a.entity ≠ b.entity)
    (hrec : ∀ r ∈ s.records, r.1.fst ≠ r.1.snd) :
    (∀ c', (ContactEvent.Started c' ∈ (trigger_area_system movers areas s).1 ∨
        ContactEvent.Stopped c' ∈ (trigger_area_system movers areas s).1) →
      c'.fst ≠ c'.snd) ∧
      ∀ r ∈ (trigger_area_system movers areas s).2.records, r.1.fst ≠ r.1.snd := by
  have hnext : ∀ d ∈ collectTriggerContacts movers areas, d.fst ≠ d.snd := by
    intro d hd
    obtain ⟨a, ha, b, hb, rfl⟩ := mem_collect movers areas d hd
    exact hdisj a ha b hb
  constructor
  · intro c' hm
    rcases hm with hm | hm
    · exact hnext c' (started_event_subset movers areas s c' hm)
    · have := stopped_event_subset movers areas s c' hm
      obtain ⟨p, hp, rfl⟩ := List.mem_map.mp this
      have hfst := mem_collectMap_fst hp
      obtain ⟨r, hr, hre⟩ := List.mem_map.mp hfst
      rw [← hre]
      exact hrec r hr
  · intro r hr
    rcases record_subset movers areas s r hr with hr' | hr'
    · exact hrec r hr'
    · exact hnext r.1 hr'

/-- Witness for claim C7 with disjoint mover/area entities. -/
theorem no_self_contact_witness :
    ((∀ a ∈ [MovingCollider.mk 0 ⟨0, 0, 0⟩ ⟨⟨2, 2⟩, ⟨0, 0, 0⟩⟩],
        ∀ b ∈ [TriggerEntry.mk 1 ⟨0, 0, 0⟩ ⟨⟨2, 2⟩⟩], a.entity ≠ b.entity) ∧
      (∀ r ∈ (⟨[], 0⟩ : TriggerState).records, r.1.fst ≠ r.1.snd)) ∧
      (∀ c', (ContactEvent.Started c' ∈
          (trigger_area_system [MovingCollider.mk 0 ⟨0, 0, 0⟩ ⟨⟨2, 2⟩, ⟨0, 0, 0⟩⟩]
            [TriggerEntry.mk 1 ⟨0, 0, 0⟩ ⟨⟨2, 2⟩⟩] ⟨[], 0⟩).1 ∨
          ContactEvent.Stopped c' ∈
          (trigger_area_system [MovingCollider.mk 0 ⟨0, 0, 0⟩ ⟨⟨2, 2⟩, ⟨0, 0, 0⟩⟩]
            [TriggerEntry.mk 1 ⟨0, 0, 0⟩ ⟨⟨2, 2⟩⟩] ⟨[], 0⟩).1) →
        c'.fst ≠ c'.snd) ∧
        ∀ r ∈ (trigger_area_system [MovingCollider.mk 0 ⟨0, 0, 0⟩ ⟨⟨2, 2⟩, ⟨0, 0, 0⟩⟩]
          [TriggerEntry.mk 1 ⟨0, 0, 0⟩ ⟨⟨2, 2⟩⟩] ⟨[], 0⟩).2.records,
          r.1.fst ≠ r.1.snd :=
  ⟨⟨by decide, by simp⟩,
    no_self_contact [MovingCollider.mk 0 ⟨0, 0, 0⟩ ⟨⟨2, 2⟩, ⟨0, 0, 0⟩⟩]
      [TriggerEntry.mk 1 ⟨0, 0, 0⟩ ⟨⟨2, 2⟩⟩] ⟨[], 0⟩ (by decide) (by simp)⟩

/-- Claim C7 counterexample: a single entity `0` carrying both a moving
collider and a trigger area at the same position is reported in contact
with itself: the pass emits `Started(Contact(0, 0))`, whose two members
are equal. -/
theorem no_self_contact_counterexample :
    ContactEvent.Started (Contact.mk 0 0) ∈
      (trigger_area_system [MovingCollider.mk 0 ⟨0, 0, 0⟩ ⟨⟨2, 2⟩, ⟨0, 0, 0⟩⟩]
        [TriggerEntry.mk 0 ⟨0, 0, 0⟩ ⟨⟨2, 2⟩⟩] ⟨[], 0⟩).1 ∧
      (Contact.mk 0 0).fst = (Contact.mk 0 0).snd := by
  have hc : collide ⟨0, 0, 0⟩ ⟨2, 2⟩ ⟨0, 0, 0⟩ ⟨2, 2⟩ = true := by
    norm_num [collide]
  have hnext : collectTriggerContacts [MovingCollider.mk 0 ⟨0, 0, 0⟩ ⟨⟨2, 2⟩, ⟨0, 0, 0⟩⟩]
      [TriggerEntry.mk 0 ⟨0, 0, 0⟩ ⟨⟨2, 2⟩⟩] = [Contact.mk 0 0] := by
    simp [collectTriggerContacts, hc, insertContact]
  constructor
  · apply (started_mem_iff _ _ _ (by simp) (by simp) _).mpr
    rw [hnext]
    simp
  · rfl


/-- Witness for claim C1: one mover and one trigger area overlapping at
the origin, starting from the empty store. -/
theorem contact_diffing_pass_witness :
    (⟨[], 0⟩ : TriggerState).WF ∧
      (((∃ c', ContactEvent.Started c' ∈
          (trigger_area_system [MovingCollider.mk 0 ⟨0, 0, 0⟩ ⟨⟨2, 2⟩, ⟨0, 0, 0⟩⟩]
            [TriggerEntry.mk 1 ⟨0, 0, 0⟩ ⟨⟨2, 2⟩⟩] ⟨[], 0⟩).1 ∧
          c'.key = (Contact.mk 0 1).key) ↔
        ((Contact.mk 0 1).key ∈
            (collectTriggerContacts [MovingCollider.mk 0 ⟨0, 0, 0⟩ ⟨⟨2, 2⟩, ⟨0, 0, 0⟩⟩]
              [TriggerEntry.mk 1 ⟨0, 0, 0⟩ ⟨⟨2, 2⟩⟩]).map Contact.key ∧
          (Contact.mk 0 1).key ∉ (⟨[], 0⟩ : TriggerState).records.map fun r => r.1.key)) ∧
      ((∃ c', ContactEvent.Stopped c' ∈
          (trigger_area_system [MovingCollider.mk 0 ⟨0, 0, 0⟩ ⟨⟨2, 2⟩, ⟨0, 0, 0⟩⟩]
            [TriggerEntry.mk 1 ⟨0, 0, 0⟩ ⟨⟨2, 2⟩⟩] ⟨[], 0⟩).1 ∧
          c'.key = (Contact.mk 0 1).key) ↔
        (((Contact.mk 0 1).key ∈ (⟨[], 0⟩ : TriggerState).records.map fun r => r.1.key) ∧
          (Contact.mk 0 1).key ∉
            (collectTriggerContacts [MovingCollider.mk 0 ⟨0, 0, 0⟩ ⟨⟨2, 2⟩, ⟨0, 0, 0⟩⟩]
              [TriggerEntry.mk 1 ⟨0, 0, 0⟩ ⟨⟨2, 2⟩⟩]).map Contact.key)) ∧
      ((Contact.mk 0 1).key ∈
          (collectTriggerContacts [MovingCollider.mk 0 ⟨0, 0, 0⟩ ⟨⟨2, 2⟩, ⟨0, 0, 0⟩⟩]
            [TriggerEntry.mk 1 ⟨0, 0, 0⟩ ⟨⟨2, 2⟩⟩]).map Contact.key ∧
          ((Contact.mk 0 1).key ∉ (⟨[], 0⟩ : TriggerState).records.map fun r => r.1.key) →
        ∃ r ∈ (trigger_area_system [MovingCollider.mk 0 ⟨0, 0, 0⟩ ⟨⟨2, 2⟩, ⟨0, 0, 0⟩⟩]
            [TriggerEntry.mk 1 ⟨0, 0, 0⟩ ⟨⟨2, 2⟩⟩] ⟨[], 0⟩).2.records,
          r.1.key = (Contact.mk 0 1).key ∧
            r.2 ∉ (⟨[], 0⟩ : TriggerState).records.map Prod.snd) ∧
      (((Contact.mk 0 1).key ∈ (⟨[], 0⟩ : TriggerState).records.map fun r => r.1.key) ∧
          (Contact.mk 0 1).key ∉
            (collectTriggerContacts [MovingCollider.mk 0 ⟨0, 0, 0⟩ ⟨⟨2, 2⟩, ⟨0, 0, 0⟩⟩]
              [TriggerEntry.mk 1 ⟨0, 0, 0⟩ ⟨⟨2, 2⟩⟩]).map Contact.key →
        ∀ r ∈ (trigger_area_system [MovingCollider.mk 0 ⟨0, 0, 0⟩ ⟨⟨2, 2⟩, ⟨0, 0, 0⟩⟩]
            [TriggerEntry.mk 1 ⟨0, 0, 0⟩ ⟨⟨2, 2⟩⟩] ⟨[], 0⟩).2.records,
          r.1.key ≠ (Contact.mk 0 1).key) ∧
      ((Contact.mk 0 1).key ∈
          (collectTriggerContacts [MovingCollider.mk 0 ⟨0, 0, 0⟩ ⟨⟨2, 2⟩, ⟨0, 0, 0⟩⟩]
            [TriggerEntry.mk 1 ⟨0, 0, 0⟩ ⟨⟨2, 2⟩⟩]).map Contact.key ∧
          ((Contact.mk 0 1).key ∈ (⟨[], 0⟩ : TriggerState).records.map fun r => r.1.key) →
        (∀ c', ContactEvent.Started c' ∈
            (trigger_area_system [MovingCollider.mk 0 ⟨0, 0, 0⟩ ⟨⟨2, 2⟩, ⟨0, 0, 0⟩⟩]
              [TriggerEntry.mk 1 ⟨0, 0, 0⟩ ⟨⟨2, 2⟩⟩] ⟨[], 0⟩).1 →
          c'.key ≠ (Contact.mk 0 1).key) ∧
        (∀ c', ContactEvent.Stopped c' ∈
            (trigger_area_system [MovingCollider.mk 0 ⟨0, 0, 0⟩ ⟨⟨2, 2⟩, ⟨0, 0, 0⟩⟩]
              [TriggerEntry.mk 1 ⟨0, 0, 0⟩ ⟨⟨2, 2⟩⟩] ⟨[], 0⟩).1 →
          c'.key ≠ (Contact.mk 0 1).key) ∧
        (∀ r ∈ (⟨[], 0⟩ : TriggerState).records, r.1.key = (Contact.mk 0 1).key →
          r ∈ (trigger_area_system [MovingCollider.mk 0 ⟨0, 0, 0⟩ ⟨⟨2, 2⟩, ⟨0, 0, 0⟩⟩]
            [TriggerEntry.mk 1 ⟨0, 0, 0⟩ ⟨⟨2, 2⟩⟩] ⟨[], 0⟩).2.records) ∧
        (∀ r ∈ (trigger_area_system [MovingCollider.mk 0 ⟨0, 0, 0⟩ ⟨⟨2, 2⟩, ⟨0, 0, 0⟩⟩]
            [TriggerEntry.mk 1 ⟨0, 0, 0⟩ ⟨⟨2, 2⟩⟩] ⟨[], 0⟩).2.records,
          r.1.key = (Contact.mk 0 1).key →
            r ∈ (⟨[], 0⟩ : TriggerState).records))) :=
  have hWF : (⟨[], 0⟩ : TriggerState).WF :=
    ⟨List.nodup_nil, List.nodup_nil, fun r hr => absurd hr (List.not_mem_nil r)⟩
  ⟨hWF, contact_diffing_pass [MovingCollider.mk 0 ⟨0, 0, 0⟩ ⟨⟨2, 2⟩, ⟨0, 0, 0⟩⟩]
    [TriggerEntry.mk 1 ⟨0, 0, 0⟩ ⟨⟨2, 2⟩⟩] ⟨[], 0⟩ hWF (Contact.mk 0 1)⟩

end Baobei
